import Mathlib

/-!
Verification of the stock trading system (`src/bin/stocks.rs`, `src/bin/brokers.rs`)
against its natural-language specification.

Modelling conventions:
* Rust `u32` fields are embedded as `Nat`; the one arithmetic operation that can
  overflow in the source (the unchecked `available_stock += quantity` in the
  `"sell"` branch of `process_transaction`) is embedded with an explicit
  `% 2^32`, the wrapping semantics of release-mode Rust. The guarded
  `available_stock -= quantity` in the `"buy"` branch only runs under
  `available_stock >= quantity`, so plain `Nat` subtraction is exact there.
* Rust `f64` prices are embedded as `ℚ`. The properties verified about prices
  are order comparisons and the structural shape of the price update
  (`buy_price = sell_price * 1.20`); no claim about floating-point rounding is
  made.
* The strings produced by `format!` in `process_transaction` are embedded
  literally (all interpolated parts are integers or plain strings). The log
  strings sent by the broker contain `{:.2}`-formatted floats, so broker
  messages are embedded as an inductive type with one constructor per
  `tx.send(format!(...))` call site, carrying the interpolated data.
-/

namespace Stocks

/-- The `Stock` struct of `stocks.rs` (lines 14–21): `id`, `name`,
`sell_price: f64`, `buy_price: f64`, `available_stock: u32`. Note that the
source struct has NO `held_quantity` field: the market state tracks only
`available_stock`. -/
structure Stock where
  id : String
  name : String
  sell_price : ℚ
  buy_price : ℚ
  available_stock : Nat
deriving Repr, DecidableEq

/-- The `StockMarket` struct of `stocks.rs` (lines 23–31). -/
structure StockMarket where
  stocks : List Stock
  transactions : List String
  usd_price : ℚ
  gold_price : ℚ
  petrol_price : ℚ
  silver_price : ℚ
deriving Repr, DecidableEq

/-- The `StockTransaction` struct of `stocks.rs` (lines 33–41). -/
structure StockTransaction where
  action : String
  id : String
  name : String
  sell_price : ℚ
  buy_price : ℚ
  quantity : Nat
deriving Repr, DecidableEq

/-- Modulus of Rust `u32` arithmetic. -/
def u32Mod : Nat := 4294967296

/-- The body of `process_transaction` for the first stock whose `id` matches
the transaction (`stocks.rs` lines 224–247): the `match transaction.action`
with the `"buy"`, `"sell"` and wildcard arms. The `"sell"` arm's unchecked
`available_stock += quantity` wraps modulo `2^32`. Returns the updated stock
and the response string. -/
def processStock (tx : StockTransaction) (s : Stock) : Stock × String :=
  if tx.action = "buy" then
    if tx.quantity ≤ s.available_stock then
      let newAvail := s.available_stock - tx.quantity
      ({ s with available_stock := newAvail },
        "Buy successful: " ++ toString tx.quantity ++ " " ++ s.name ++
          " remaining: " ++ toString newAvail)
    else
      (s, "Buy failed: Insufficient stock for " ++ s.name ++
        " (Available: " ++ toString s.available_stock ++ ")")
  else if tx.action = "sell" then
    let newAvail := (s.available_stock + tx.quantity) % u32Mod
    ({ s with available_stock := newAvail },
      "Sell successful: " ++ toString tx.quantity ++ " " ++ s.name ++
        " new total: " ++ toString newAvail)
  else
    (s, "Invalid action")

/-- The `self.stocks.iter_mut().find(|s| s.id == transaction.id)` of
`stocks.rs` line 223, combined with the in-place mutation of the found stock:
recurses down the stock list, updates the FIRST stock whose `id` matches with
`processStock`, and returns the updated list and the response; `none` when no
stock matches. -/
def processStocks (tx : StockTransaction) : List Stock → Option (List Stock × String)
  | [] => none
  | s :: rest =>
      if s.id = tx.id then
        let (s', msg) := processStock tx s
        some (s' :: rest, msg)
      else
        match processStocks tx rest with
        | some (rest', msg) => some (s :: rest', msg)
        | none => none

/-- `StockMarket::process_transaction` (`stocks.rs` lines 222–251): find the
stock by id and dispatch on the action; when no stock matches, return the
not-found message and leave the market unchanged. -/
def StockMarket.process_transaction (m : StockMarket) (tx : StockTransaction) :
    StockMarket × String :=
  match processStocks tx m.stocks with
  | some (stocks', msg) => ({ m with stocks := stocks' }, msg)
  | none => (m, "Stock with ID " ++ tx.id ++ " not found")

/-- The processing loop of `consume_actions` (`stocks.rs` lines 194–219),
restricted to well-formed deliveries: each received action is processed exactly
once with `process_transaction`, its response is sent, and the loop moves on to
the next delivery. Returns the final market and the responses in order. -/
def StockMarket.consume_actions (m : StockMarket) :
    List StockTransaction → StockMarket × List String
  | [] => (m, [])
  | tx :: rest =>
      let (m', msg) := m.process_transaction tx
      let (m'', msgs) := m'.consume_actions rest
      (m'', msg :: msgs)

/-- `stocks.iter().find(|s| s.id == id)`: the first stock of the list whose
`id` matches, if any. Used to state pre/postconditions of
`process_transaction`. -/
def findStock (stocks : List Stock) (id : String) : Option Stock :=
  stocks.find? (fun s => s.id == id)

/-- Sum of `available_stock` over the whole registry: the total number of
units the market tracks. -/
def totalAvailable (m : StockMarket) : Nat :=
  (m.stocks.map Stock.available_stock).sum

/-- One price tick of `simulate_price_changes` for a single stock
(`stocks.rs` lines 115–118): `sell_price += sell_price * fluctuation;`
`buy_price = sell_price * 1.20;` where `fluctuation` is the random draw from
`-0.05..0.05`. -/
def Stock.tick (s : Stock) (fluctuation : ℚ) : Stock :=
  let sell := s.sell_price + s.sell_price * fluctuation
  { s with sell_price := sell, buy_price := sell * (6 / 5) }

/-- The stock list built in `main` (`stocks.rs` lines 343–366): three stocks
`G1`/`Gold`, `S1`/`Silver`, `P1`/`Petrol` whose `sell_price`, `buy_price` and
`available_stock` are drawn from independent `gen_range` calls; the arguments
are the drawn values. -/
def initialStocks (gSell gBuy : ℚ) (gAvail : Nat) (sSell sBuy : ℚ) (sAvail : Nat)
    (pSell pBuy : ℚ) (pAvail : Nat) : List Stock :=
  [ { id := "G1", name := "Gold", sell_price := gSell, buy_price := gBuy,
      available_stock := gAvail },
    { id := "S1", name := "Silver", sell_price := sSell, buy_price := sBuy,
      available_stock := sAvail },
    { id := "P1", name := "Petrol", sell_price := pSell, buy_price := pBuy,
      available_stock := pAvail } ]

end Stocks

namespace Brokers

/-- The `TradePreferences` struct of `brokers.rs` (lines 10–19). -/
structure TradePreferences where
  stock_id : String
  max_price : ℚ
  min_price : ℚ
  order_amount : Nat
  target_profit : ℚ
  stop_loss_limit : ℚ
  interested_stocks : List String
deriving Repr, DecidableEq

/-- The `Broker` struct of `brokers.rs` (lines 21–25). -/
structure Broker where
  id : String
  preferences : TradePreferences
deriving Repr, DecidableEq

/-- The `Stock` struct local to `brokers.rs` (lines 74–78): only an id and a
price. -/
structure Stock where
  id : String
  price : ℚ
deriving Repr, DecidableEq

/-- One log message sent on the broker's channel: one constructor per
`tx.send(format!(...))` call site of `Broker::process_stock_update`
(`brokers.rs` lines 39, 46, 56, 63), carrying the interpolated data. -/
inductive BrokerMsg where
  | placingOrder (brokerId stockId : String) (price : ℚ) (orderAmount : Nat)
  | noAction (brokerId stockId : String) (price : ℚ)
  | targetProfit (brokerId stockId : String) (price : ℚ)
  | stopLoss (brokerId stockId : String) (price : ℚ)
deriving Repr, DecidableEq

/-- True exactly on the `placingOrder` message ("Placing order for stock …"). -/
def BrokerMsg.isPlacingOrder : BrokerMsg → Bool
  | .placingOrder _ _ _ _ => true
  | _ => false

/-- True exactly on the `targetProfit` message ("Reached target profit …,
selling"). -/
def BrokerMsg.isTargetProfit : BrokerMsg → Bool
  | .targetProfit _ _ _ => true
  | _ => false

/-- True exactly on the `stopLoss` message ("Reached stop loss limit …,
selling"). -/
def BrokerMsg.isStopLoss : BrokerMsg → Bool
  | .stopLoss _ _ _ => true
  | _ => false

/-- `Broker::process_stock_update` (`brokers.rs` lines 35–71): if the stock is
in the broker's interest set, first send either the entry-order message (when
`price <= max_price && price >= min_price`) or the no-action message, and then
send the target-profit message (when `price >= target_profit`), else the
stop-loss message (when `price <= stop_loss_limit`), else nothing. Outside the
interest set nothing is sent. Returns the messages sent, in send order. -/
def Broker.process_stock_update (b : Broker) (stock : Stock) : List BrokerMsg :=
  if stock.id ∈ b.preferences.interested_stocks then
    (if stock.price ≤ b.preferences.max_price ∧ b.preferences.min_price ≤ stock.price then
      [BrokerMsg.placingOrder b.id stock.id stock.price b.preferences.order_amount]
    else
      [BrokerMsg.noAction b.id stock.id stock.price])
    ++
    (if b.preferences.target_profit ≤ stock.price then
      [BrokerMsg.targetProfit b.id stock.id stock.price]
    else if stock.price ≤ b.preferences.stop_loss_limit then
      [BrokerMsg.stopLoss b.id stock.id stock.price]
    else [])
  else []

end Brokers

namespace Spec

/-- Follows the spec's words (§3, §4.1): an instrument's inventory state as the
specification describes it, with `available_quantity` and a `held_quantity`
("quantity currently bought-but-not-resold"). This is the spec-side model used
to compare the code against refinement-style claims; the source `Stock` struct
has no held field. -/
structure Instrument where
  available_quantity : Nat
  held_quantity : Nat
deriving Repr, DecidableEq

/-- Follows the spec's words (§4.1): `apply_buy` fails with
`InsufficientAvailable` when `qty > available_quantity`; on success it
decrements `available_quantity` and increments `held_quantity` by `qty`. -/
def apply_buy (i : Instrument) (qty : Nat) : Except String Instrument :=
  if i.available_quantity < qty then
    Except.error ("InsufficientAvailable")
  else
    Except.ok { available_quantity := i.available_quantity - qty,
                held_quantity := i.held_quantity + qty }

/-- Follows the spec's words (§4.1): `apply_sell` fails with
`InsufficientHeld` when `qty > held_quantity`; on success it decrements
`held_quantity` and increments `available_quantity` by `qty`. -/
def apply_sell (i : Instrument) (qty : Nat) : Except String Instrument :=
  if i.held_quantity < qty then
    Except.error ("InsufficientHeld")
  else
    Except.ok { available_quantity := i.available_quantity + qty,
                held_quantity := i.held_quantity - qty }

/-- The spec's conserved quantity (§3): `available_quantity + held_quantity`. -/
def invariantSum (i : Instrument) : Nat :=
  i.available_quantity + i.held_quantity

end Spec

namespace Stocks

/-- Abstraction of a source `Stock` to the spec's instrument state: the
available quantity is `available_stock`; the held quantity is 0, because the
source `Stock` struct (`stocks.rs` lines 14–21) has no held field and no code
path in the repository tracks held units (the spec's own scenario, §8, starts
every instrument at `held=0`, and only `apply_buy`/`apply_sell` — absent from
the code — may change it). -/
def Stock.toSpec (s : Stock) : Spec.Instrument :=
  { available_quantity := s.available_stock, held_quantity := 0 }

/-- Net change of the registry's total available units produced by one
transaction: `-quantity` for a buy that passes the availability check,
`+quantity` for a sell on a known id, `0` otherwise (rejected buy, unknown id,
invalid action). Stated over `ℤ`; the sell case is exact only modulo `2^32`
because the source's sell addition wraps. -/
def txDelta (m : StockMarket) (tx : StockTransaction) : ℤ :=
  match findStock m.stocks tx.id with
  | none => 0
  | some s =>
      if tx.action = "buy" then
        (if tx.quantity ≤ s.available_stock then -(tx.quantity : ℤ) else 0)
      else if tx.action = "sell" then (tx.quantity : ℤ)
      else 0

/-- Accumulated `txDelta` along a run of `consume_actions`. -/
def runDelta : StockMarket → List StockTransaction → ℤ
  | _, [] => 0
  | m, tx :: rest => txDelta m tx + runDelta (m.process_transaction tx).1 rest

/-- A concrete market in the shape `main` builds (`stocks.rs` lines 342–372):
the three stocks with draws from the documented ranges, empty transaction log,
and the fixed commodity prices. The Silver draw `sell=29, buy=25` is inside the
documented `gen_range` bounds (`20.0..30.0` and `24.0..36.0`). -/
def exampleMarket : StockMarket :=
  { stocks := initialStocks 1800 2100 100 29 25 500 3 (18 / 5) 300,
    transactions := [], usd_price := 1, gold_price := 1800,
    petrol_price := 3, silver_price := 25 }

/-- The Gold stock of `exampleMarket`. -/
def g1Stock : Stock :=
  { id := "G1", name := "Gold", sell_price := 1800, buy_price := 2100,
    available_stock := 100 }

/-- A buy of 10 units of `G1`. -/
def buyTx10 : StockTransaction :=
  { action := "buy", id := "G1", name := "Gold", sell_price := 1800,
    buy_price := 2100, quantity := 10 }

/-- A buy of 1000 units of `G1` (more than the 100 available in
`exampleMarket`). -/
def buyTx1000 : StockTransaction :=
  { action := "buy", id := "G1", name := "Gold", sell_price := 1800,
    buy_price := 2100, quantity := 1000 }

/-- A sell of 10 units of `G1`. -/
def sellTx10 : StockTransaction :=
  { action := "sell", id := "G1", name := "Gold", sell_price := 1800,
    buy_price := 2100, quantity := 10 }

/-- A sell of `u32::MAX` units of `G1`: a quantity representable in the wire
format's `u32` that overflows the unchecked `available_stock += quantity`. -/
def sellWrapTx : StockTransaction :=
  { action := "sell", id := "G1", name := "Gold", sell_price := 1800,
    buy_price := 2100, quantity := 4294967295 }

/-- A buy referencing an instrument id registered in no stock of
`exampleMarket`. -/
def unknownTx : StockTransaction :=
  { action := "buy", id := "X9", name := "Mystery", sell_price := 1,
    buy_price := 1, quantity := 5 }

end Stocks

namespace Brokers

/-- Broker `B1` as constructed in `main` of `brokers.rs` (lines 116–127). -/
def b1 : Broker :=
  { id := "B1",
    preferences :=
      { stock_id := "AAPL", max_price := 50, min_price := 20, order_amount := 10,
        target_profit := 80, stop_loss_limit := 15,
        interested_stocks := ["AAPL", "GOOGL"] } }

/-- Broker `B2` as constructed in `main` of `brokers.rs` (lines 128–139). -/
def b2 : Broker :=
  { id := "B2",
    preferences :=
      { stock_id := "GOOGL", max_price := 70, min_price := 30, order_amount := 15,
        target_profit := 100, stop_loss_limit := 25,
        interested_stocks := ["GOOGL"] } }

/-- A broker whose thresholds violate the expected `target_profit >
stop_loss_limit` ordering (`target_profit = 30 < 50 = stop_loss_limit`), so a
single price can cross both liquidation thresholds at once — the configuration
the spec's decision-rule-ordering test calls for. -/
def bCross : Broker :=
  { id := "B3",
    preferences :=
      { stock_id := "AAPL", max_price := 10, min_price := 5, order_amount := 7,
        target_profit := 30, stop_loss_limit := 50,
        interested_stocks := ["AAPL"] } }

/-- An `AAPL` update at price 40: simultaneously `≥ bCross.target_profit = 30`
and `≤ bCross.stop_loss_limit = 50`. -/
def stockCross : Stock := { id := "AAPL", price := 40 }

/-- An `AAPL` update at price 30: inside `b1`'s entry band `[20, 50]`. -/
def stockAAPL30 : Stock := { id := "AAPL", price := 30 }

end Brokers

namespace Stocks

/-- Structure of one `process_transaction` lookup: either no stock matches the
transaction's id (and the search returns `none`), or the stock list splits as
`l1 ++ s :: l2` around the first match `s`, and processing updates exactly that
position with `processStock`. -/
theorem processStocks_spec (tx : StockTransaction) (l : List Stock) :
    (processStocks tx l = none ∧ findStock l tx.id = none) ∨
    (∃ l1 s l2, l = l1 ++ s :: l2 ∧ (∀ t ∈ l1, t.id ≠ tx.id) ∧ s.id = tx.id ∧
      findStock l tx.id = some s ∧
      processStocks tx l = some (l1 ++ (processStock tx s).1 :: l2, (processStock tx s).2)) := by
  induction l with
  | nil => exact Or.inl ⟨rfl, rfl⟩
  | cons a rest ih =>
      by_cases h : a.id = tx.id
      · refine Or.inr ⟨[], a, rest, rfl, by simp, h, ?_, ?_⟩
        · simp only [findStock]
          rw [List.find?_cons_of_pos _ (by simp [h])]
        · simp [processStocks, h]
      · rcases ih with ⟨hn, hf⟩ | ⟨l1, s, l2, hl, hl1, hs, hf, hp⟩
        · refine Or.inl ⟨?_, ?_⟩
          · simp [processStocks, h, hn]
          · simp only [findStock]
            rw [List.find?_cons_of_neg _ (by simp [h])]
            simpa [findStock] using hf
        · refine Or.inr ⟨a :: l1, s, l2, by simp [hl], ?_, hs, ?_, ?_⟩
          · intro t ht
            rcases List.mem_cons.mp ht with rfl | ht
            · exact h
            · exact hl1 t ht
          · simp only [findStock]
            rw [List.find?_cons_of_neg _ (by simp [h])]
            simpa [findStock] using hf
          · simp [processStocks, h, hp]

/-- `findStock` on a list whose prefix has no matching id and whose next
element matches returns that element. -/
theorem findStock_append_cons (l1 : List Stock) (s : Stock) (l2 : List Stock)
    (id : String) (h1 : ∀ t ∈ l1, t.id ≠ id) (hs : s.id = id) :
    findStock (l1 ++ s :: l2) id = some s := by
  induction l1 with
  | nil =>
      simp only [findStock, List.nil_append]
      rw [List.find?_cons_of_pos _ (by simp [hs])]
  | cons a rest ih =>
      have ha : a.id ≠ id := h1 a (List.mem_cons_self a rest)
      have hrest := ih (fun t ht => h1 t (List.mem_cons_of_mem a ht))
      simp only [findStock, List.cons_append]
      rw [List.find?_cons_of_neg _ (by simp [ha])]
      simpa [findStock] using hrest

/-- `processStock` changes at most the `available_stock` field. -/
theorem processStock_frame (tx : StockTransaction) (s : Stock) :
    (processStock tx s).1.id = s.id ∧ (processStock tx s).1.name = s.name ∧
    (processStock tx s).1.sell_price = s.sell_price ∧
    (processStock tx s).1.buy_price = s.buy_price := by
  unfold processStock
  split_ifs <;> exact ⟨rfl, rfl, rfl, rfl⟩

/-- Unfolding one iteration of the `consume_actions` loop. -/
theorem consume_actions_cons (m : StockMarket) (tx : StockTransaction)
    (rest : List StockTransaction) :
    m.consume_actions (tx :: rest) =
      (((m.process_transaction tx).1.consume_actions rest).1,
        (m.process_transaction tx).2 ::
          ((m.process_transaction tx).1.consume_actions rest).2) := by
  simp only [StockMarket.consume_actions]

/-- One `process_transaction` step changes the registry's total available
units by exactly `txDelta`, modulo `2^32` (the sell branch wraps). -/
theorem totalAvailable_step (m : StockMarket) (tx : StockTransaction) :
    (totalAvailable (m.process_transaction tx).1 : ℤ) ≡
      (totalAvailable m : ℤ) + txDelta m tx [ZMOD (u32Mod : ℤ)] := by
  rcases processStocks_spec tx m.stocks with ⟨hn, hf⟩ | ⟨l1, s, l2, hl, hl1, hs, hf, hp⟩
  · simp [StockMarket.process_transaction, hn, txDelta, hf]
  · have hm1 : (m.process_transaction tx).1 =
        { m with stocks := l1 ++ (processStock tx s).1 :: l2 } := by
      simp [StockMarket.process_transaction, hp]
    have hTm : totalAvailable m =
        (l1.map Stock.available_stock).sum +
          (s.available_stock + (l2.map Stock.available_stock).sum) := by
      simp [totalAvailable, hl, List.map_append, List.sum_append]
    have hT2 : totalAvailable { m with stocks := l1 ++ (processStock tx s).1 :: l2 } =
        (l1.map Stock.available_stock).sum +
          ((processStock tx s).1.available_stock + (l2.map Stock.available_stock).sum) := by
      simp [totalAvailable, List.map_append, List.sum_append]
    have hd : txDelta m tx =
        (if tx.action = "buy" then
          (if tx.quantity ≤ s.available_stock then -(tx.quantity : ℤ) else 0)
        else if tx.action = "sell" then (tx.quantity : ℤ) else 0) := by
      simp [txDelta, hf]
    rw [hm1, hT2, hTm, hd]
    unfold processStock
    split_ifs with hb hq hsell
    all_goals dsimp only
    all_goals simp only [Int.ModEq, u32Mod]
    all_goals push_cast
    all_goals omega

/-- C1 counterexample: the claimed conserved quantity
`available_quantity + held_quantity` is NOT conserved by the code. On the
concrete market built from `main`'s initialization (Gold available 100, no
held units anywhere — the source tracks no `held_quantity`), one buy of 10
takes the sum from 100 to 90: the 10 bought units leave the tracked state
entirely. -/
theorem buy_breaks_conservation_sum :
    (findStock exampleMarket.stocks "G1").map
      (fun s => Spec.invariantSum s.toSpec) = some 100 ∧
    (findStock (exampleMarket.process_transaction buyTx10).1.stocks "G1").map
      (fun s => Spec.invariantSum s.toSpec) = some 90 ∧
    (90 : ℕ) ≠ 100 :=
  ⟨rfl, rfl, by decide⟩

/-- C1 (amended): what the code actually conserves. Across any sequence of
processed transactions, the registry's total `available_stock` changes by
exactly the accumulated net flow `runDelta` (−qty per applied buy, +qty per
sell on a known id, 0 otherwise), modulo `2^32` because the sell addition
wraps. The spec's `available_quantity + held_quantity` conservation fails:
no `held_quantity` exists, so bought units are destroyed and sold units
created from the registry's point of view. -/
theorem net_flow_conservation (m : StockMarket) (txs : List StockTransaction) :
    (totalAvailable (m.consume_actions txs).1 : ℤ) ≡
      (totalAvailable m : ℤ) + runDelta m txs [ZMOD (u32Mod : ℤ)] := by
  induction txs generalizing m with
  | nil => simp [StockMarket.consume_actions, runDelta]
  | cons tx rest ih =>
      rw [consume_actions_cons]
      have h1 := totalAvailable_step m tx
      have h2 := ih (m.process_transaction tx).1
      have h3 := h1.add_right (runDelta (m.process_transaction tx).1 rest)
      have h4 := h2.trans h3
      simpa [runDelta, add_assoc] using h4

/-- C2 counterexample: the claim requires a sell of 10 on an instrument with
no held units to fail with `InsufficientHeld` (the spec-side `apply_sell`
does exactly that), but the code's `process_transaction` reports
"Sell successful" and increments `available_stock` from 100 to 110: there is
no held check at all. -/
theorem sell_succeeds_despite_zero_held :
    Spec.apply_sell g1Stock.toSpec 10 = Except.error ("InsufficientHeld") ∧
    findStock exampleMarket.stocks "G1" = some g1Stock ∧
    (exampleMarket.process_transaction sellTx10).2 =
      "Sell successful: 10 Gold new total: 110" ∧
    (findStock (exampleMarket.process_transaction sellTx10).1.stocks "G1").map
      Stock.available_stock = some 110 :=
  ⟨rfl, rfl, rfl, rfl⟩

/-- C2 (amended): every sell action on a known instrument succeeds
unconditionally — no quantity bound, no `InsufficientHeld` failure path — and
increments the instrument's `available_stock` by the requested quantity,
wrapping modulo `2^32`; nothing is decremented. -/
theorem sell_unconditional_success (m : StockMarket) (tx : StockTransaction)
    (s : Stock) (ha : tx.action = "sell") (hf : findStock m.stocks tx.id = some s) :
    (m.process_transaction tx).2 =
      "Sell successful: " ++ toString tx.quantity ++ " " ++ s.name ++
        " new total: " ++ toString ((s.available_stock + tx.quantity) % u32Mod) ∧
    findStock (m.process_transaction tx).1.stocks tx.id =
      some { s with available_stock := (s.available_stock + tx.quantity) % u32Mod } := by
  rcases processStocks_spec tx m.stocks with ⟨hn, hf2⟩ | ⟨l1, s2, l2, hl, hl1, hs, hf2, hp⟩
  · rw [hf] at hf2
    exact Option.noConfusion hf2
  · rw [hf] at hf2
    injection hf2 with hss
    subst hss
    have hps : processStock tx s =
        ({ s with available_stock := (s.available_stock + tx.quantity) % u32Mod },
          "Sell successful: " ++ toString tx.quantity ++ " " ++ s.name ++
            " new total: " ++ toString ((s.available_stock + tx.quantity) % u32Mod)) := by
      unfold processStock
      rw [ha]
      simp
    have hm : m.process_transaction tx =
        ({ m with stocks :=
            l1 ++ { s with available_stock := (s.available_stock + tx.quantity) % u32Mod } :: l2 },
          "Sell successful: " ++ toString tx.quantity ++ " " ++ s.name ++
            " new total: " ++ toString ((s.available_stock + tx.quantity) % u32Mod)) := by
      rw [hps] at hp
      simp [StockMarket.process_transaction, hp]
    rw [hm]
    exact ⟨rfl, findStock_append_cons l1 _ l2 tx.id hl1 hs⟩

/-- C2 witness: the amended sell theorem evaluated on the concrete market:
selling 10 Gold against 100 available yields the success message and 110
available. -/
theorem sell_unconditional_success_witness :
    (exampleMarket.process_transaction sellTx10).2 =
      "Sell successful: 10 Gold new total: 110" ∧
    findStock (exampleMarket.process_transaction sellTx10).1.stocks "G1" =
      some { id := "G1", name := "Gold", sell_price := 1800, buy_price := 2100,
             available_stock := 110 } := by
  have h := sell_unconditional_success exampleMarket sellTx10 g1Stock (by rfl) (by rfl)
  exact ⟨h.1, h.2⟩

/-- C3 counterexample: the spec-side `apply_buy` on Gold (available 100, held
0) with quantity 10 yields available 90 and held 10, but after the code
processes the same buy the held quantity of the resulting state is still 0 —
the source tracks no `held_quantity`, so nothing is incremented. -/
theorem buy_does_not_increment_held :
    Spec.apply_buy g1Stock.toSpec 10 =
      Except.ok { available_quantity := 90, held_quantity := 10 } ∧
    (findStock (exampleMarket.process_transaction buyTx10).1.stocks "G1").map
      (fun s => s.toSpec.held_quantity) = some 0 ∧
    (0 : ℕ) ≠ 10 :=
  ⟨rfl, rfl, by decide⟩

/-- C3 (amended): a buy on a known instrument with requested quantity not
exceeding `available_stock` succeeds, decrements `available_stock` by the
quantity, and its success message reports the remaining `available_stock`; no
held quantity is incremented because none exists in the state. -/
theorem buy_success_decrements_available (m : StockMarket) (tx : StockTransaction)
    (s : Stock) (ha : tx.action = "buy") (hf : findStock m.stocks tx.id = some s)
    (hq : tx.quantity ≤ s.available_stock) :
    (m.process_transaction tx).2 =
      "Buy successful: " ++ toString tx.quantity ++ " " ++ s.name ++
        " remaining: " ++ toString (s.available_stock - tx.quantity) ∧
    findStock (m.process_transaction tx).1.stocks tx.id =
      some { s with available_stock := s.available_stock - tx.quantity } := by
  rcases processStocks_spec tx m.stocks with ⟨hn, hf2⟩ | ⟨l1, s2, l2, hl, hl1, hs, hf2, hp⟩
  · rw [hf] at hf2
    exact Option.noConfusion hf2
  · rw [hf] at hf2
    injection hf2 with hss
    subst hss
    have hps : processStock tx s =
        ({ s with available_stock := s.available_stock - tx.quantity },
          "Buy successful: " ++ toString tx.quantity ++ " " ++ s.name ++
            " remaining: " ++ toString (s.available_stock - tx.quantity)) := by
      unfold processStock
      rw [ha]
      simp [hq]
    have hm : m.process_transaction tx =
        ({ m with stocks :=
            l1 ++ { s with available_stock := s.available_stock - tx.quantity } :: l2 },
          "Buy successful: " ++ toString tx.quantity ++ " " ++ s.name ++
            " remaining: " ++ toString (s.available_stock - tx.quantity)) := by
      rw [hps] at hp
      simp [StockMarket.process_transaction, hp]
    rw [hm]
    exact ⟨rfl, findStock_append_cons l1 _ l2 tx.id hl1 hs⟩

/-- C3 witness: the amended buy theorem evaluated on the concrete market:
buying 10 Gold against 100 available yields the success message reporting 90
remaining, and 90 available in the registry. -/
theorem buy_success_decrements_available_witness :
    (exampleMarket.process_transaction buyTx10).2 =
      "Buy successful: 10 Gold remaining: 90" ∧
    findStock (exampleMarket.process_transaction buyTx10).1.stocks "G1" =
      some { id := "G1", name := "Gold", sell_price := 1800, buy_price := 2100,
             available_stock := 90 } := by
  have h := buy_success_decrements_available exampleMarket buyTx10 g1Stock
    (by rfl) (by rfl) (by decide)
  exact ⟨h.1, h.2⟩

/-- C4: a buy whose quantity exceeds the matched instrument's
`available_stock` is rejected with the insufficient-stock message and leaves
the market state completely unchanged; processing the same over-large buy a
second time returns the identical rejected result and again leaves the state
unchanged. -/
theorem buy_rejection_leaves_state_unchanged (m : StockMarket)
    (tx : StockTransaction) (s : Stock) (ha : tx.action = "buy")
    (hf : findStock m.stocks tx.id = some s)
    (hq : s.available_stock < tx.quantity) :
    m.process_transaction tx =
      (m, "Buy failed: Insufficient stock for " ++ s.name ++
        " (Available: " ++ toString s.available_stock ++ ")") ∧
    (m.process_transaction tx).1.process_transaction tx = m.process_transaction tx := by
  rcases processStocks_spec tx m.stocks with ⟨hn, hf2⟩ | ⟨l1, s2, l2, hl, hl1, hs, hf2, hp⟩
  · rw [hf] at hf2
    exact Option.noConfusion hf2
  · rw [hf] at hf2
    injection hf2 with hss
    subst hss
    have hps : processStock tx s =
        (s, "Buy failed: Insufficient stock for " ++ s.name ++
          " (Available: " ++ toString s.available_stock ++ ")") := by
      unfold processStock
      rw [ha]
      simp [Nat.not_le.mpr hq]
    have hm : m.process_transaction tx =
        (m, "Buy failed: Insufficient stock for " ++ s.name ++
          " (Available: " ++ toString s.available_stock ++ ")") := by
      rw [hps] at hp
      rw [← hl] at hp
      simp [StockMarket.process_transaction, hp]
    refine ⟨hm, ?_⟩
    rw [hm]
    exact hm

/-- C4 witness: rejecting a buy of 1000 Gold against 100 available on the
concrete market returns the failure message, leaves the market equal to what
it was, and does so identically when submitted twice. -/
theorem buy_rejection_leaves_state_unchanged_witness :
    exampleMarket.process_transaction buyTx1000 =
      (exampleMarket, "Buy failed: Insufficient stock for Gold (Available: 100)") ∧
    (exampleMarket.process_transaction buyTx1000).1.process_transaction buyTx1000 =
      exampleMarket.process_transaction buyTx1000 := by
  have h := buy_rejection_leaves_state_unchanged exampleMarket buyTx1000 g1Stock
    (by rfl) (by rfl) (by decide)
  exact ⟨h.1, h.2⟩

/-- C5: a trade action whose id matches no registered stock produces the
not-found response and leaves the market unchanged; in the processing loop it
is consumed exactly once — the loop continues with precisely the remaining
actions, so the failed action is never queued again. -/
theorem unknown_instrument_not_found (m : StockMarket) (tx : StockTransaction)
    (hf : findStock m.stocks tx.id = none) (rest : List StockTransaction) :
    m.process_transaction tx = (m, "Stock with ID " ++ tx.id ++ " not found") ∧
    m.consume_actions (tx :: rest) =
      ((m.consume_actions rest).1,
        ("Stock with ID " ++ tx.id ++ " not found") :: (m.consume_actions rest).2) := by
  rcases processStocks_spec tx m.stocks with ⟨hn, hf2⟩ | ⟨l1, s2, l2, hl, hl1, hs, hf2, hp⟩
  · have hm : m.process_transaction tx =
        (m, "Stock with ID " ++ tx.id ++ " not found") := by
      simp [StockMarket.process_transaction, hn]
    refine ⟨hm, ?_⟩
    rw [consume_actions_cons, hm]
  · rw [hf] at hf2
    exact Option.noConfusion hf2

/-- C5 witness: the unknown-instrument theorem evaluated on the concrete
market with an action on unregistered id `X9`, followed by one remaining
action. -/
theorem unknown_instrument_not_found_witness :
    exampleMarket.process_transaction unknownTx =
      (exampleMarket, "Stock with ID X9 not found") ∧
    exampleMarket.consume_actions (unknownTx :: [buyTx10]) =
      ((exampleMarket.consume_actions [buyTx10]).1,
        "Stock with ID X9 not found" :: (exampleMarket.consume_actions [buyTx10]).2) := by
  have h := unknown_instrument_not_found exampleMarket unknownTx (by rfl) [buyTx10]
  exact ⟨h.1, h.2⟩

/-- C8 counterexample: at initialization the buy/sell prices are independent
random draws, so `buy_price = sell_price × markup` with `markup ≥ 1` can fail.
The Silver draw `sell_price = 29` (inside `20.0..30.0`) and `buy_price = 25`
(inside `24.0..36.0`) is produced by `main`'s documented ranges — so are all
the other values of this instantiation — yet `buy_price < sell_price`, which
no markup factor `≥ 1` can produce. -/
theorem init_markup_violated :
    (initialStocks 1800 2100 100 29 25 500 3 (18 / 5) 300).get? 1 =
      some { id := "S1", name := "Silver", sell_price := 29, buy_price := 25,
             available_stock := 500 } ∧
    ((1700 : ℚ) < 1800 ∧ (1800 : ℚ) < 2000 ∧ (2040 : ℚ) < 2100 ∧
      (2100 : ℚ) < 2400 ∧ (50 : ℕ) ≤ 100 ∧ (100 : ℕ) < 150 ∧
      (20 : ℚ) < 29 ∧ (29 : ℚ) < 30 ∧ (24 : ℚ) < 25 ∧ (25 : ℚ) < 36 ∧
      (400 : ℕ) ≤ 500 ∧ (500 : ℕ) < 600 ∧
      (5 / 2 : ℚ) < 3 ∧ (3 : ℚ) < 7 / 2 ∧ (3 : ℚ) < 18 / 5 ∧ (18 / 5 : ℚ) < 4 ∧
      (250 : ℕ) ≤ 300 ∧ (300 : ℕ) < 350) ∧
    (25 : ℚ) < 29 :=
  ⟨rfl, by norm_num, by norm_num⟩

/-- C8 (amended): after each price tick, `buy_price = sell_price × 1.20`
(1.20 = 6/5), a markup factor that is `≥ 1`; the invariant holds after every
tick but not at initialization, where the two prices are drawn
independently. -/
theorem tick_markup_factor (s : Stock) (f : ℚ) :
    (s.tick f).buy_price = (s.tick f).sell_price * (6 / 5) ∧ ((1 : ℚ) ≤ 6 / 5) :=
  ⟨rfl, by norm_num⟩

/-- C9: the sell branch adds the requested quantity to `available_stock` on
`u32` with no bound check: from the reachable initial market (Gold available
100), a sell of `u32::MAX = 4294967295` units — `100 + 4294967295 =
4294967395`, which exceeds `u32::MAX` — is accepted and wraps to `99`
available, exactly `4294967395 % 2^32`. -/
theorem sell_addition_wraps :
    (exampleMarket.process_transaction sellWrapTx).2 =
      "Sell successful: 4294967295 Gold new total: 99" ∧
    ((exampleMarket.process_transaction sellWrapTx).1.stocks.map
      Stock.available_stock) = [99, 500, 300] ∧
    g1Stock.available_stock + sellWrapTx.quantity = 4294967395 ∧
    u32Mod - 1 < 4294967395 ∧
    (4294967395 : ℕ) % u32Mod = 99 ∧
    (99 : ℕ) ≠ 4294967395 :=
  ⟨rfl, rfl, rfl, by decide, by decide, by decide⟩

/-- C10: frame property of `process_transaction`: the transaction log, the
four commodity prices, and every stock's `id`, `name`, `sell_price` and
`buy_price` are unchanged by any processed action; either the stock list is
completely unchanged, or exactly the first stock matching the action's id is
replaced, and even then only its `available_stock` may differ. This covers
buys, sells, unknown ids and unknown action kinds alike. -/
theorem process_transaction_frame (m : StockMarket) (tx : StockTransaction) :
    ((m.process_transaction tx).1.transactions = m.transactions ∧
     (m.process_transaction tx).1.usd_price = m.usd_price ∧
     (m.process_transaction tx).1.gold_price = m.gold_price ∧
     (m.process_transaction tx).1.petrol_price = m.petrol_price ∧
     (m.process_transaction tx).1.silver_price = m.silver_price) ∧
    ((m.process_transaction tx).1.stocks = m.stocks ∨
      ∃ l1 s s2 l2, m.stocks = l1 ++ s :: l2 ∧
        (m.process_transaction tx).1.stocks = l1 ++ s2 :: l2 ∧
        s.id = tx.id ∧ (∀ t ∈ l1, t.id ≠ tx.id) ∧
        s2.id = s.id ∧ s2.name = s.name ∧ s2.sell_price = s.sell_price ∧
        s2.buy_price = s.buy_price) := by
  rcases processStocks_spec tx m.stocks with ⟨hn, hf⟩ | ⟨l1, s, l2, hl, hl1, hs, hf, hp⟩
  · have hm : (m.process_transaction tx).1 = m := by
      simp [StockMarket.process_transaction, hn]
    rw [hm]
    exact ⟨⟨rfl, rfl, rfl, rfl, rfl⟩, Or.inl rfl⟩
  · have hm : (m.process_transaction tx).1 =
        { m with stocks := l1 ++ (processStock tx s).1 :: l2 } := by
      simp [StockMarket.process_transaction, hp]
    rw [hm]
    refine ⟨⟨rfl, rfl, rfl, rfl, rfl⟩,
      Or.inr ⟨l1, s, (processStock tx s).1, l2, hl, rfl, hs, hl1,
        (processStock_frame tx s).1, (processStock_frame tx s).2.1,
        (processStock_frame tx s).2.2.1, (processStock_frame tx s).2.2.2⟩⟩

end Stocks

namespace Brokers

/-- C6: liquidation rule precedence. For a price update on an instrument a
broker is interested in, the target-profit and stop-loss messages are never
both emitted, and whenever the price simultaneously satisfies both thresholds
(`target_profit ≤ price` and `price ≤ stop_loss_limit`), the profit-take
message is the one emitted and the stop-loss message is not: the source
guards the stop-loss send with `else if`. -/
theorem profit_take_precedence (b : Broker) (stock : Stock)
    (hint : stock.id ∈ b.preferences.interested_stocks) :
    ¬(((b.process_stock_update stock).any BrokerMsg.isTargetProfit) = true ∧
      ((b.process_stock_update stock).any BrokerMsg.isStopLoss) = true) ∧
    (b.preferences.target_profit ≤ stock.price →
      stock.price ≤ b.preferences.stop_loss_limit →
        ((b.process_stock_update stock).any BrokerMsg.isTargetProfit) = true ∧
        ((b.process_stock_update stock).any BrokerMsg.isStopLoss) = false) := by
  unfold Broker.process_stock_update
  rw [if_pos hint]
  split_ifs with hband htp hsl
  all_goals
    simp_all [BrokerMsg.isTargetProfit, BrokerMsg.isStopLoss]

/-- C6 witness: the precedence theorem evaluated on the broker whose
thresholds are crossed simultaneously (`target_profit = 30`,
`stop_loss_limit = 50`, price 40): only the profit-take message is sent. -/
theorem profit_take_precedence_witness :
    ((bCross.process_stock_update stockCross).any BrokerMsg.isTargetProfit) = true ∧
    ((bCross.process_stock_update stockCross).any BrokerMsg.isStopLoss) = false := by
  have h := profit_take_precedence bCross stockCross (by decide)
  exact h.2 (by norm_num [bCross, stockCross]) (by norm_num [bCross, stockCross])

/-- C7: entry rule. For a price update on an instrument in the broker's
interest set, the entry-order message for exactly `order_amount` units is
emitted if and only if `min_price ≤ price ≤ max_price`; for an instrument
outside the interest set, no message of any kind is sent. -/
theorem entry_rule_iff_band (b : Broker) (stock : Stock) :
    (stock.id ∈ b.preferences.interested_stocks →
      ((BrokerMsg.placingOrder b.id stock.id stock.price b.preferences.order_amount ∈
          b.process_stock_update stock) ↔
        (b.preferences.min_price ≤ stock.price ∧
          stock.price ≤ b.preferences.max_price))) ∧
    (stock.id ∉ b.preferences.interested_stocks →
      b.process_stock_update stock = []) := by
  constructor
  · intro hint
    unfold Broker.process_stock_update
    rw [if_pos hint]
    split_ifs with hband htp hsl
    all_goals simp_all [BrokerMsg.isPlacingOrder]
    all_goals
      intro hmin
      by_cases hmax : stock.price ≤ b.preferences.max_price
      · exact absurd hmin (not_le.mpr (hband hmax))
      · exact not_le.mp hmax
  · intro hint
    unfold Broker.process_stock_update
    rw [if_neg hint]

/-- C7 witness: the entry-rule theorem evaluated on broker `B1`
(band `[20, 50]`, order amount 10) and an `AAPL` update at price 30: the
order message for 10 units is emitted. Evaluated also in the negative
direction on broker `B2`, which is not interested in `AAPL`: no message. -/
theorem entry_rule_iff_band_witness :
    BrokerMsg.placingOrder "B1" "AAPL" 30 10 ∈ b1.process_stock_update stockAAPL30 ∧
    b2.process_stock_update stockAAPL30 = [] := by
  refine ⟨?_, ?_⟩
  · exact ((entry_rule_iff_band b1 stockAAPL30).1 (by decide)).mpr
      (by norm_num [b1, stockAAPL30])
  · exact (entry_rule_iff_band b2 stockAAPL30).2 (by decide)

end Brokers
